import Mathlib

/-!
Shallow embedding of `cargo-kbuild` (file `cargo-kbuild/src/main.rs`), the
Kconfig-style build front-end: the `.config` parser, the feature validator,
the directive synthesizer (`collect_all_configs`, `generate_features`,
`generate_cargo_config`, `generate_config_rs`) and the exit-code plumbing of
the `build` subcommand.  Rust strings are modelled as lists of characters,
`HashMap`/`HashSet` as association lists / duplicate-free lists together with
explicit quantification over enumeration order where iteration order of the
hash containers matters.  Filesystem reads are modelled as `Option`-valued
inputs (`none` = the read failed); a Rust panic is modelled as an `Option`
result of `none` (respectively a dedicated constructor).
-/

namespace Kbuild

/-- Characters of a Rust `String` / `&str`, modelled as a list of characters.
UTF-8 byte order coincides with code-point order, so lexicographic
comparison of these lists matches Rust's `String` ordering. -/
abbrev Str := List Char

/-- Conversion from a Lean string literal to the model type. -/
def ofString (s : String) : Str := s.data

/-- Whitespace test used by Rust's `str::trim` (ASCII fragment, which is all
that configuration files use). -/
def isWS (c : Char) : Bool := c = ' ' || c = '\t' || c = '\n' || c = '\r'

/-- Model of Rust `str::trim_start`. -/
def trimStart (s : Str) : Str := s.dropWhile isWS

/-- Model of Rust `str::trim_end`. -/
def trimEnd (s : Str) : Str := (s.reverse.dropWhile isWS).reverse

/-- Model of Rust `str::trim` (drop leading and trailing whitespace). -/
def trim (s : Str) : Str := trimEnd (trimStart s)

/-- Model of Rust `str::split_once(sep)`: split at the first occurrence of
`sep`, returning the parts before and after it, or `none` when `sep` does not
occur. -/
def splitOnce (sep : Char) : Str → Option (Str × Str)
  | [] => none
  | c :: cs =>
    if c = sep then some ([], cs)
    else match splitOnce sep cs with
      | none => none
      | some (a, b) => some (c :: a, b)

/-- Model of Rust `str::starts_with(pat)` for a string pattern. -/
def startsWithStr : Str → Str → Bool
  | _, [] => true
  | [], _ :: _ => false
  | c :: cs, p :: ps => c = p && startsWithStr cs ps

/-- The configuration name marker `"CONFIG_"`. -/
def configMark : Str := ofString "CONFIG_"

/-- Test `name.starts_with("CONFIG_")` from the source. -/
def hasConfigMark (s : Str) : Bool := startsWithStr s configMark

/-- One line of `parse_config` (`cargo-kbuild/src/main.rs:258-267`): trim the
line; skip it when empty or starting with `#`; otherwise `split_once('=')`,
skipping the line when there is no `=`, and trim both sides. -/
def parseLine (line : Str) : Option (Str × Str) :=
  match trim line with
  | [] => none
  | c :: cs =>
    if c = '#' then none
    else match splitOnce '=' (c :: cs) with
      | none => none
      | some (k, v) => some (trim k, trim v)

/-- Model of `HashMap::insert` on an association list: replace the binding of
`k` in place when present, otherwise append a fresh binding. -/
def insertAL (m : List (Str × Str)) (k v : Str) : List (Str × Str) :=
  match m with
  | [] => [(k, v)]
  | (k', v') :: rest => if k' = k then (k, v) :: rest else (k', v') :: insertAL rest k v

/-- Lookup in the association-list model of `HashMap`. -/
def lookupAL (m : List (Str × Str)) (k : Str) : Option Str :=
  match m with
  | [] => none
  | (k', v') :: rest => if k' = k then some v' else lookupAL rest k

/-- The keys of an association list are pairwise distinct (the `HashMap`
invariant). -/
abbrev nodupKeys (m : List (Str × Str)) : Prop := (m.map Prod.fst).Nodup

/-- One iteration of the loop of `parse_config`: insert the parsed binding,
if any, into the table. -/
def parseStep (m : List (Str × Str)) (l : Str) : List (Str × Str) :=
  match parseLine l with
  | none => m
  | some (k, v) => insertAL m k v

/-- Loop body of `parse_config`: fold `parseLine` over the lines,
inserting each parsed binding into the table. -/
def parseConfigLines (lines : List Str) : List (Str × Str) :=
  lines.foldl parseStep []

/-- Strip one trailing carriage return, as Rust `str::lines` does. -/
def stripCR (l : Str) : Str := if l.getLast? = some '\r' then l.dropLast else l

/-- Split a string at every occurrence of `sep`, keeping empty segments. -/
def splitChar (sep : Char) : Str → List Str
  | [] => [[]]
  | c :: cs =>
    if c = sep then [] :: splitChar sep cs
    else match splitChar sep cs with
      | [] => [[c]]
      | l :: ls => (c :: l) :: ls

/-- Model of Rust `str::lines`: split on `'\n'`, drop a trailing empty
segment produced by a final newline, and strip one trailing `'\r'` per
line. -/
def rustLines (s : Str) : List Str :=
  let parts := splitChar '\n' s
  let parts := if parts.getLast? = some [] then parts.dropLast else parts
  parts.map stripCR

/-- Model of `parse_config` (`cargo-kbuild/src/main.rs:253-270`).  The
filesystem read is an `Option` input: `none` models an unreadable file and is
the only error (`IoError`); every actual content parses successfully. -/
def parse_config (readResult : Option Str) : Except Unit (List (Str × Str)) :=
  match readResult with
  | none => Except.error ()
  | some content => Except.ok (parseConfigLines (rustLines content))

/-! Workspace model: `CrateInfo` / `Workspace` from the source, with the
fields the validator and synthesizer read.  The `path` field is only used for
file I/O and is dropped. -/

/-- Model of `CrateInfo` (`cargo-kbuild/src/main.rs:36-43`): package name,
the `package.metadata.kbuild.enabled` flag, and the `[features]` table as an
association list from feature name to dependency-spec list. -/
structure CrateInfo where
  name : Str
  has_kbuild : Bool
  features : List (Str × List Str)
deriving DecidableEq

/-- Model of `CrateInfo::is_kbuild_enabled` (`cargo-kbuild/src/main.rs:46-48`):
the metadata flag, or some declared feature name starting with `CONFIG_`. -/
def CrateInfo.is_kbuild_enabled (c : CrateInfo) : Bool :=
  c.has_kbuild || c.features.any (fun fd => hasConfigMark fd.1)

/-- Model of `Workspace`: the list of member crates (the `root` path is only
used for file I/O and is dropped). -/
structure Workspace where
  crates : List CrateInfo
deriving DecidableEq

/-- The set `kbuild_packages` built in `validate_features`
(`cargo-kbuild/src/main.rs:135-140`): names of kbuild-enabled crates. -/
def kbuildPackages (ws : Workspace) : List Str :=
  (ws.crates.filter (fun c => c.is_kbuild_enabled)).map CrateInfo.name

/-- The set `workspace_packages` built in `validate_features`
(`cargo-kbuild/src/main.rs:143-147`): names of all crates. -/
def workspacePackages (ws : Workspace) : List Str :=
  ws.crates.map CrateInfo.name

/-- The data carried by the `ConfigAwareDependencyConflict` error message
(`cargo-kbuild/src/main.rs:163-183`): the formatted string interpolates the
offending crate's name, the feature (capability) name, the full dependency
spec, and the target package name. -/
structure ConflictErr where
  crateName : Str
  featureName : Str
  dep : Str
  pkgName : Str
deriving DecidableEq

/-- Check of one dependency spec (`cargo-kbuild/src/main.rs:157-197`): when
the spec contains a `/`, the part before the first `/` naming a
kbuild-enabled package is an error; a non-kbuild workspace package or a
third-party name only logs an informational note. -/
def checkDep (kb : List Str) (crateName featureName dep : Str) : Option ConflictErr :=
  match splitOnce '/' dep with
  | none => none
  | some (pkgName, _) =>
    if pkgName ∈ kb then some ⟨crateName, featureName, dep, pkgName⟩ else none

/-- Fold `checkDep` over a capability's dependency list, failing fast. -/
def validateDeps (kb : List Str) (crateName featureName : Str) :
    List Str → Except ConflictErr Unit
  | [] => Except.ok ()
  | d :: ds =>
    match checkDep kb crateName featureName d with
    | some e => Except.error e
    | none => validateDeps kb crateName featureName ds

/-- Fold over one crate's feature table (`cargo-kbuild/src/main.rs:151-199`):
only `CONFIG_`-prefixed feature names are inspected. -/
def validateFeats (kb : List Str) (crateName : Str) :
    List (Str × List Str) → Except ConflictErr Unit
  | [] => Except.ok ()
  | (fn, deps) :: rest =>
    if hasConfigMark fn then
      match validateDeps kb crateName fn deps with
      | Except.error e => Except.error e
      | Except.ok () => validateFeats kb crateName rest
    else validateFeats kb crateName rest

/-- Fold over the kbuild-enabled crates of the workspace. -/
def validateCrates (kb : List Str) : List CrateInfo → Except ConflictErr Unit
  | [] => Except.ok ()
  | c :: cs =>
    match validateFeats kb c.name c.features with
    | Except.error e => Except.error e
    | Except.ok () => validateCrates kb cs

/-- Model of `validate_features` (`cargo-kbuild/src/main.rs:131-204`). -/
def validate_features (ws : Workspace) : Except ConflictErr Unit :=
  validateCrates (kbuildPackages ws)
    (ws.crates.filter (fun c => c.is_kbuild_enabled))

/-- Model of `collect_all_configs` (`cargo-kbuild/src/main.rs:207-219`): the
`CONFIG_`-prefixed feature names of kbuild-enabled crates, collected into a
`HashSet` — modelled as a duplicate-free list in one fixed enumeration order
(theorems about hash-iteration-order sensitivity quantify over permutations
of this list). -/
def collect_all_configs (ws : Workspace) : List Str :=
  (ws.crates.filter (fun c => c.is_kbuild_enabled)).foldl
    (fun acc c =>
      c.features.foldl
        (fun acc fd =>
          if hasConfigMark fd.1 ∧ fd.1 ∉ acc then acc ++ [fd.1] else acc)
        acc)
    []

/-- Loop guard of `generate_features` (`cargo-kbuild/src/main.rs:277`):
`key.starts_with("CONFIG_") && (value == "y" || value == "m")`. -/
def activeEntry (kv : Str × Str) : Bool :=
  hasConfigMark kv.1 && (kv.2 == ofString "y" || kv.2 == ofString "m")

/-- Model of `generate_features` (`cargo-kbuild/src/main.rs:273-283`): the
`CONFIG_`-prefixed keys of the parsed table whose value is `y` or `m`, in
table-enumeration order. -/
def generate_features (config : List (Str × Str)) : List Str :=
  config.foldl (fun acc kv => if activeEntry kv then acc ++ [kv.1] else acc) []

/-- The feature list that `build` (`cargo-kbuild/src/main.rs:359-374`) passes
to `cargo build --features ...` and to the `--cfg` flags: it is exactly the
`generate_features` output; the workspace (and its declared capability set)
is in scope at the call site but is not consulted. -/
def cargoFeatures (_ws : Workspace) (config : List (Str × Str)) : List Str :=
  generate_features config

/-! Numeric parsing and rendering used by `generate_config_rs`. -/

/-- ASCII digit test. -/
def isDigit (c : Char) : Bool := '0' ≤ c && c ≤ '9'

/-- Numeric value of a digit string (most significant first). -/
def natOfDigits (s : Str) : Nat :=
  s.foldl (fun a c => a * 10 + (c.toNat - '0'.toNat)) 0

/-- Model of Rust `str::parse::<i32>()`: an optional `+`/`-` sign followed by
one or more ASCII digits, whose value fits in a 32-bit signed integer. -/
def parseI32 (s : Str) : Option Int :=
  let (neg, digits) :=
    match s with
    | '+' :: rest => (false, rest)
    | '-' :: rest => (true, rest)
    | _ => (false, s)
  if digits = [] ∨ ¬ digits.all isDigit then none
  else
    let v : Int := if neg then -(natOfDigits digits : Int) else (natOfDigits digits : Int)
    if -2147483648 ≤ v ∧ v ≤ 2147483647 then some v else none

/-- Model of Rust `str::parse::<usize>()` on the 64-bit targets this tool
builds for: an optional `+` sign followed by one or more ASCII digits, whose
value fits in a 64-bit unsigned integer. -/
def parseUsize (s : Str) : Option Nat :=
  let digits := match s with | '+' :: rest => rest | _ => s
  if digits = [] ∨ ¬ digits.all isDigit then none
  else
    let v := natOfDigits digits
    if v ≤ 18446744073709551615 then some v else none

/-- Decimal rendering of a natural number (Rust `{}` formatting). -/
def natToStr (n : Nat) : Str := Nat.toDigits 10 n

/-- Decimal rendering of an integer (Rust `{}` formatting). -/
def intToStr (i : Int) : Str :=
  if i < 0 then '-' :: natToStr i.natAbs else natToStr i.natAbs

/-! `generate_cargo_config` (`cargo-kbuild/src/main.rs:222-250`). -/

/-- Header text of the generated `.cargo/config.toml`
(`cargo-kbuild/src/main.rs:229-234`). -/
def cargoConfigHeader : Str :=
  ofString "# Auto-generated by cargo-kbuild\n" ++
  ofString "# This file declares all CONFIG_* conditional compilation flags\n" ++
  ofString "# Run 'cargo-kbuild build' to regenerate this file\n" ++
  ofString "# DO NOT commit this file to git\n\n" ++
  ofString "[build]\n" ++
  ofString "rustflags = [\n"

/-- One generated `rustflags` line (`cargo-kbuild/src/main.rs:240`). -/
def checkCfgLine (c : Str) : Str :=
  ofString "    \"--check-cfg=cfg(" ++ c ++ ofString ")\",\n"

/-- Content of the generated `.cargo/config.toml`
(`cargo-kbuild/src/main.rs:229-243`): header, then one `--check-cfg` line per
config name in sorted order, then the closing bracket.  The argument is the
`HashSet` of names in some enumeration order. -/
def generate_cargo_config_content (configs : List Str) : Str :=
  cargoConfigHeader ++
  (List.insertionSort (· ≤ ·) configs).foldl (fun acc c => acc ++ checkCfgLine c) [] ++
  ofString "]\n"

/-! `generate_config_rs` (`cargo-kbuild/src/main.rs:286-335`). -/

/-- Outcome of processing one config entry in `generate_config_rs`:
either no constant is emitted, or one declaration is appended, or the
string slice `&value[1..value.len()-1]` panics (which happens exactly when
the value is the single character `"`; then the range `1..0` is invalid). -/
inductive ConstOut where
  | skipped : ConstOut
  | line (s : Str) : ConstOut
  | sliceFault : ConstOut
deriving DecidableEq

/-- Declaration emitted for an `i32` value
(`cargo-kbuild/src/main.rs:312-313`). -/
def i32Line (k : Str) (n : Int) : Str :=
  ofString "#[allow(dead_code)]\n" ++
  ofString "pub const " ++ k ++ ofString ": i32 = " ++ intToStr n ++ ofString ";\n\n"

/-- Declaration emitted for a quoted-string value, quotes stripped
(`cargo-kbuild/src/main.rs:316-319`). -/
def strLine (k inner : Str) : Str :=
  ofString "#[allow(dead_code)]\n" ++
  ofString "pub const " ++ k ++ ofString ": &str = \"" ++ inner ++ ofString "\";\n\n"

/-- Declaration emitted for a `usize` value
(`cargo-kbuild/src/main.rs:322-324`). -/
def usizeLine (k : Str) (n : Nat) : Str :=
  ofString "#[allow(dead_code)]\n" ++
  ofString "pub const " ++ k ++ ofString ": usize = " ++ natToStr n ++ ofString ";\n\n"

/-- Per-entry behaviour of the loop body of `generate_config_rs`
(`cargo-kbuild/src/main.rs:300-326`): skip non-`CONFIG_` keys and `y`/`n`/`m`
values; then try `i32`, then the quote-delimited shape (whose slice panics on
the one-character value `"`), then `usize`; anything else emits nothing. -/
def constOutFor (k v : Str) : ConstOut :=
  if ¬ hasConfigMark k then ConstOut.skipped
  else if v = ofString "y" ∨ v = ofString "n" ∨ v = ofString "m" then ConstOut.skipped
  else match parseI32 v with
    | some n => ConstOut.line (i32Line k n)
    | none =>
      if v.head? = some '"' ∧ v.getLast? = some '"' then
        if 2 ≤ v.length then ConstOut.line (strLine k (v.drop 1).dropLast)
        else ConstOut.sliceFault
      else match parseUsize v with
        | some n => ConstOut.line (usizeLine k n)
        | none => ConstOut.skipped

/-- Header text of the generated `config.rs`
(`cargo-kbuild/src/main.rs:296-297`). -/
def configRsHeader : Str :=
  ofString "// Auto-generated by cargo-kbuild from .config\n" ++
  ofString "// DO NOT EDIT MANUALLY\n\n"

/-- Content of the generated `config.rs`: the fold of `constOutFor` over the
table in enumeration order, `none` when some entry panics
(`cargo-kbuild/src/main.rs:295-326`). -/
def generate_config_rs_content (config : List (Str × Str)) : Option Str :=
  config.foldl
    (fun acc kv =>
      match acc with
      | none => none
      | some s =>
        match constOutFor kv.1 kv.2 with
        | ConstOut.skipped => some s
        | ConstOut.line l => some (s ++ l)
        | ConstOut.sliceFault => none)
    (some configRsHeader)

/-! Exit-code plumbing of the `build` subcommand. -/

/-- Tail of `build` (`cargo-kbuild/src/main.rs:405-413`): the spawned
`cargo build` exits with `cargoExitCode`; on any non-zero status the function
returns the fixed error string `"Build failed"`. -/
def buildStep (cargoExitCode : Nat) : Except Str Unit :=
  if cargoExitCode = 0 then Except.ok () else Except.error (ofString "Build failed")

/-- Process exit code of `cmd_build` (`cargo-kbuild/src/main.rs:641-657`):
`process::exit(1)` on any `Err` from `build`, normal return (exit code 0)
otherwise. -/
def cmd_build_exit (cargoExitCode : Nat) : Nat :=
  match buildStep cargoExitCode with
  | Except.ok _ => 0
  | Except.error _ => 1

/-! Helper lemmas. -/

theorem generate_features_foldl (config : List (Str × Str)) (acc : List Str) :
    config.foldl (fun acc kv => if activeEntry kv then acc ++ [kv.1] else acc) acc =
      acc ++ (config.filter activeEntry).map Prod.fst := by
  induction config generalizing acc with
  | nil => simp
  | cons kv rest ih =>
    simp only [List.foldl_cons]
    cases h : activeEntry kv
    · rw [if_neg (by simp [h])]
      rw [ih, List.filter_cons, h]
      simp
    · rw [if_pos (by simp [h])]
      rw [ih, List.filter_cons, h]
      simp

theorem generate_features_eq (config : List (Str × Str)) :
    generate_features config = (config.filter activeEntry).map Prod.fst := by
  simpa using generate_features_foldl config []

theorem mem_generate_features (config : List (Str × Str)) (k : Str) :
    k ∈ generate_features config ↔
      ∃ v, (k, v) ∈ config ∧ hasConfigMark k = true ∧
        (v = ofString "y" ∨ v = ofString "m") := by
  rw [generate_features_eq]
  simp only [List.mem_map, List.mem_filter]
  constructor
  · rintro ⟨⟨k', v⟩, ⟨hmem, hcond⟩, rfl⟩
    simp only [activeEntry, Bool.and_eq_true, Bool.or_eq_true, beq_iff_eq] at hcond
    exact ⟨v, hmem, hcond.1, hcond.2⟩
  · rintro ⟨v, hmem, h1, h2⟩
    refine ⟨(k, v), ⟨hmem, ?_⟩, rfl⟩
    simp only [activeEntry, Bool.and_eq_true, Bool.or_eq_true, beq_iff_eq]
    exact ⟨h1, h2⟩

theorem lookupAL_mem (m : List (Str × Str)) (k v : Str) (h : nodupKeys m) :
    (k, v) ∈ m ↔ lookupAL m k = some v := by
  induction m with
  | nil => simp [lookupAL]
  | cons kv rest ih =>
    obtain ⟨k', v'⟩ := kv
    rw [nodupKeys, List.map_cons, List.nodup_cons] at h
    by_cases hk : k' = k
    · subst hk
      have hl : lookupAL ((k', v') :: rest) k' = some v' := by simp [lookupAL]
      rw [hl]
      constructor
      · intro hm
        rcases List.mem_cons.mp hm with heq | hmem
        · injection heq with h1 h2
          rw [h2]
        · exact absurd (List.mem_map_of_mem Prod.fst hmem) h.1
      · intro hs
        rw [Option.some.injEq] at hs
        exact List.mem_cons.mpr (Or.inl (by rw [hs]))
    · simp only [lookupAL, if_neg hk, List.mem_cons, Prod.mk.injEq]
      rw [← ih h.2]
      constructor
      · rintro (⟨h1, _⟩ | hmem)
        · exact absurd h1.symm hk
        · exact hmem
      · exact Or.inr

theorem lookupAL_none (m : List (Str × Str)) (k : Str) (h : lookupAL m k = none) :
    ∀ v, (k, v) ∉ m := by
  induction m with
  | nil => simp
  | cons kv rest ih =>
    obtain ⟨k', v'⟩ := kv
    rw [lookupAL] at h
    by_cases hk : k' = k
    · rw [if_pos hk] at h
      exact absurd h (by simp)
    · rw [if_neg hk] at h
      intro v hmem
      rcases List.mem_cons.mp hmem with heq | hmem'
      · exact hk (congrArg Prod.fst heq).symm
      · exact ih h v hmem'

theorem mem_generate_features_lookup (config : List (Str × Str)) (h : nodupKeys config)
    (k : Str) :
    k ∈ generate_features config ↔
      hasConfigMark k = true ∧
        (lookupAL config k = some (ofString "y") ∨ lookupAL config k = some (ofString "m")) := by
  rw [mem_generate_features]
  constructor
  · rintro ⟨v, hmem, h1, h2⟩
    refine ⟨h1, ?_⟩
    rcases h2 with rfl | rfl
    · exact Or.inl ((lookupAL_mem config k _ h).mp hmem)
    · exact Or.inr ((lookupAL_mem config k _ h).mp hmem)
  · rintro ⟨h1, hy | hm⟩
    · exact ⟨ofString "y", (lookupAL_mem config k _ h).mpr hy, h1, Or.inl rfl⟩
    · exact ⟨ofString "m", (lookupAL_mem config k _ h).mpr hm, h1, Or.inr rfl⟩

theorem dropWhile_dropWhile (p : Char → Bool) (l : Str) :
    (l.dropWhile p).dropWhile p = l.dropWhile p := by
  induction l with
  | nil => rfl
  | cons c t ih =>
    by_cases h : p c
    · simp [List.dropWhile_cons, h, ih]
    · simp [List.dropWhile_cons, h]

theorem trimStart_idem (s : Str) : trimStart (trimStart s) = trimStart s :=
  dropWhile_dropWhile isWS s

theorem trimEnd_idem (s : Str) : trimEnd (trimEnd s) = trimEnd s := by
  unfold trimEnd
  rw [List.reverse_reverse, dropWhile_dropWhile]

theorem trimStart_eq_nil_iff (s : Str) : trimStart s = [] ↔ ∀ c ∈ s, isWS c := by
  simp [trimStart, List.dropWhile_eq_nil_iff]

theorem trimEnd_eq_nil_iff (s : Str) : trimEnd s = [] ↔ ∀ c ∈ s, isWS c := by
  simp [trimEnd, List.dropWhile_eq_nil_iff]

theorem trimStart_cons_ws (c : Char) (t : Str) (h : isWS c = true) :
    trimStart (c :: t) = trimStart t := by
  simp [trimStart, List.dropWhile_cons, h]

theorem trimStart_cons_neg (c : Char) (t : Str) (h : isWS c = false) :
    trimStart (c :: t) = c :: t := by
  simp [trimStart, List.dropWhile_cons, h]

theorem trimEnd_cons_neg (c : Char) (t : Str) (h : isWS c = false) :
    trimEnd (c :: t) = c :: trimEnd t := by
  unfold trimEnd
  rw [List.reverse_cons, List.dropWhile_append]
  by_cases h0 : (t.reverse.dropWhile isWS).isEmpty
  · rw [if_pos h0]
    rw [List.isEmpty_iff] at h0
    rw [h0, List.reverse_nil]
    simp [List.dropWhile_cons, h]
  · rw [if_neg h0]
    simp

theorem trimEnd_cons_ws (c : Char) (t : Str) (h : isWS c = true)
    (h2 : trimEnd t = []) : trimEnd (c :: t) = [] := by
  unfold trimEnd
  rw [List.reverse_cons, List.dropWhile_append]
  have h0 : (t.reverse.dropWhile isWS).isEmpty = true := by
    rw [List.isEmpty_iff]
    have := h2
    unfold trimEnd at this
    rwa [List.reverse_eq_nil_iff] at this
  rw [if_pos h0]
  simp [List.dropWhile_cons, h]

theorem trimEnd_cons_keep (c : Char) (t : Str) (h2 : trimEnd t ≠ []) :
    trimEnd (c :: t) = c :: trimEnd t := by
  unfold trimEnd
  rw [List.reverse_cons, List.dropWhile_append]
  have h0 : (t.reverse.dropWhile isWS).isEmpty = false := by
    rw [List.isEmpty_eq_false]
    intro hnil
    apply h2
    unfold trimEnd
    rw [hnil, List.reverse_nil]
  rw [if_neg (by simp [h0])]
  simp

theorem trimStart_trimEnd_comm (l : Str) :
    trimStart (trimEnd l) = trimEnd (trimStart l) := by
  induction l with
  | nil => rfl
  | cons c t ih =>
    by_cases h : isWS c
    · rw [trimStart_cons_ws c t h]
      by_cases h2 : trimEnd t = []
      · rw [trimEnd_cons_ws c t h h2]
        have hts : trimStart t = [] := by
          rw [trimStart_eq_nil_iff]
          exact (trimEnd_eq_nil_iff t).mp h2
        rw [hts]
        rfl
      · rw [trimEnd_cons_keep c t h2, trimStart_cons_ws c _ h]
        exact ih
    · have hb : isWS c = false := by simpa using h
      rw [trimStart_cons_neg c t hb, trimEnd_cons_neg c t hb,
        trimStart_cons_neg c _ hb]

theorem trim_trimStart (a : Str) : trim (trimStart a) = trim a := by
  unfold trim
  rw [trimStart_idem]

theorem trim_trimEnd (b : Str) : trim (trimEnd b) = trim b := by
  unfold trim
  rw [trimStart_trimEnd_comm, trimEnd_idem]

theorem trimStart_append_nonws (a : Str) (c : Char) (b : Str) (h : isWS c = false) :
    trimStart (a ++ c :: b) = trimStart a ++ c :: b := by
  induction a with
  | nil =>
    rw [List.nil_append, trimStart_cons_neg c b h]
    rfl
  | cons x xs ih =>
    by_cases hx : isWS x
    · rw [List.cons_append, trimStart_cons_ws x _ hx, trimStart_cons_ws x _ hx]
      exact ih
    · have hxb : isWS x = false := by simpa using hx
      rw [List.cons_append, trimStart_cons_neg x _ hxb, trimStart_cons_neg x _ hxb,
        List.cons_append]

theorem trimEnd_append_nonws (x : Str) (c : Char) (b : Str) (h : isWS c = false) :
    trimEnd (x ++ c :: b) = x ++ c :: trimEnd b := by
  unfold trimEnd
  rw [show (x ++ c :: b).reverse = b.reverse ++ c :: x.reverse by simp,
    List.dropWhile_append]
  by_cases h0 : (b.reverse.dropWhile isWS).isEmpty
  · rw [if_pos h0]
    rw [List.isEmpty_iff] at h0
    rw [h0, List.reverse_nil, List.dropWhile_cons]
    rw [h]
    simp
  · rw [if_neg h0]
    simp

theorem trim_append_sep (a b : Str) :
    trim (a ++ '=' :: b) = trimStart a ++ '=' :: trimEnd b := by
  unfold trim
  rw [trimStart_append_nonws a '=' b (by decide),
    trimEnd_append_nonws (trimStart a) '=' b (by decide)]

theorem splitOnce_append (sep : Char) (x y : Str) (h : sep ∉ x) :
    splitOnce sep (x ++ sep :: y) = some (x, y) := by
  induction x with
  | nil => simp [splitOnce]
  | cons c cs ih =>
    have hc : ¬ c = sep := fun heq => h (heq ▸ List.mem_cons_self c cs)
    have hcs : sep ∉ cs := fun hm => h (List.mem_cons_of_mem c hm)
    rw [List.cons_append, splitOnce, if_neg hc, ih hcs]

theorem parseLine_eq_cons (line : Str) (c : Char) (cs : Str) (h : trim line = c :: cs) :
    parseLine line =
      (if c = '#' then none
       else match splitOnce '=' (c :: cs) with
         | none => none
         | some (k, v) => some (trim k, trim v)) := by
  rw [parseLine, h]

/-- C7: line-level behaviour of `parse_config`: a line that trims to empty
or starts (after trimming) with `#` is ignored; a line without `=` is
silently skipped; a line `a=b` in which `a` contains no `=` (so the split is
at the first `=`, preserving any further `=` inside `b`) yields the binding
of `trim a` to `trim b`; an actual file content always parses successfully,
and the only parse failure is the unreadable-file case. -/
theorem parse_config_spec :
    (∀ line : Str, trim line = [] → parseLine line = none) ∧
    (∀ line : Str, (trim line).head? = some '#' → parseLine line = none) ∧
    (∀ line : Str, splitOnce '=' (trim line) = none → parseLine line = none) ∧
    (∀ a b : Str, '=' ∉ a → (trim (a ++ '=' :: b)).head? ≠ some '#' →
      parseLine (a ++ '=' :: b) = some (trim a, trim b)) ∧
    (∀ content : Str, parse_config (some content) =
      Except.ok (parseConfigLines (rustLines content))) ∧
    parse_config none = Except.error () := by
  refine ⟨?_, ?_, ?_, ?_, fun _ => rfl, rfl⟩
  · intro line h
    rw [parseLine, h]
  · intro line h
    cases htl : trim line with
    | nil => rw [htl] at h; cases h
    | cons c cs =>
      rw [htl, List.head?] at h
      injection h with h
      rw [parseLine_eq_cons line c cs htl, if_pos h]
  · intro line h
    cases htl : trim line with
    | nil => rw [parseLine, htl]
    | cons c cs =>
      rw [htl] at h
      rw [parseLine_eq_cons line c cs htl]
      by_cases hc : c = '#'
      · rw [if_pos hc]
      · rw [if_neg hc, h]
  · intro a b ha hh
    have hsub : '=' ∉ trimStart a :=
      fun hm => ha ((List.dropWhile_sublist isWS).subset hm)
    have hsplit : splitOnce '=' (trimStart a ++ '=' :: trimEnd b) =
        some (trimStart a, trimEnd b) := splitOnce_append '=' _ _ hsub
    have htr := trim_append_sep a b
    cases hsa : trimStart a with
    | nil =>
      rw [hsa, List.nil_append] at htr hsplit
      rw [parseLine_eq_cons _ '=' (trimEnd b) htr, if_neg (by decide), hsplit]
      have h1 : trim a = [] := by
        rw [← trim_trimStart a, hsa]
        rfl
      show some (trim ([] : Str), trim (trimEnd b)) = some (trim a, trim b)
      rw [h1, trim_trimEnd b]
      rfl
    | cons c cs =>
      rw [hsa, List.cons_append] at htr hsplit
      have hc : ¬ c = '#' := by
        intro heq
        apply hh
        rw [htr, heq]
        rfl
      rw [parseLine_eq_cons _ c (cs ++ '=' :: trimEnd b) htr, if_neg hc, hsplit]
      have h1 : trim (c :: cs) = trim a := by
        rw [← hsa, trim_trimStart a]
      show some (trim (c :: cs), trim (trimEnd b)) = some (trim a, trim b)
      rw [h1, trim_trimEnd b]

/-- Witness for `parse_config_spec`: the line `KEY = a=b` (key part
containing no `=`, value containing one) parses to the binding of `KEY` to
`a=b`, both sides trimmed. -/
theorem parse_config_spec_witness :
    parseLine (ofString "KEY " ++ '=' :: ofString " a=b") =
      some (trim (ofString "KEY "), trim (ofString " a=b")) :=
  parse_config_spec.2.2.2.1 (ofString "KEY ") (ofString " a=b")
    (by decide) (by decide)

theorem mem_keys_insertAL (m : List (Str × Str)) (k v x : Str) :
    x ∈ (insertAL m k v).map Prod.fst ↔ x ∈ m.map Prod.fst ∨ x = k := by
  induction m with
  | nil => simp [insertAL]
  | cons kv rest ih =>
    obtain ⟨k', v'⟩ := kv
    by_cases hk : k' = k
    · subst hk
      rw [insertAL, if_pos rfl, List.map_cons, List.map_cons]
      simp only [List.mem_cons]
      tauto
    · rw [insertAL, if_neg hk, List.map_cons, List.map_cons]
      simp only [List.mem_cons, ih]
      tauto

theorem insertAL_nodupKeys (m : List (Str × Str)) (k v : Str) (h : nodupKeys m) :
    nodupKeys (insertAL m k v) := by
  induction m with
  | nil =>
    rw [insertAL]
    simp [nodupKeys]
  | cons kv rest ih =>
    obtain ⟨k', v'⟩ := kv
    rw [nodupKeys, List.map_cons, List.nodup_cons] at h
    by_cases hk : k' = k
    · subst hk
      rw [insertAL, if_pos rfl, nodupKeys, List.map_cons, List.nodup_cons]
      exact ⟨h.1, h.2⟩
    · rw [insertAL, if_neg hk, nodupKeys, List.map_cons, List.nodup_cons]
      refine ⟨?_, ih h.2⟩
      rw [mem_keys_insertAL]
      rintro (hmem | rfl)
      · exact h.1 hmem
      · exact hk rfl

theorem lookupAL_insertAL_self (m : List (Str × Str)) (k v : Str) :
    lookupAL (insertAL m k v) k = some v := by
  induction m with
  | nil => simp [insertAL, lookupAL]
  | cons kv rest ih =>
    obtain ⟨k', v'⟩ := kv
    by_cases hk : k' = k
    · subst hk
      rw [insertAL, if_pos rfl, lookupAL, if_pos rfl]
    · rw [insertAL, if_neg hk, lookupAL, if_neg hk]
      exact ih

theorem lookupAL_insertAL_ne (m : List (Str × Str)) (k x v : Str) (h : x ≠ k) :
    lookupAL (insertAL m k v) x = lookupAL m x := by
  induction m with
  | nil =>
    simp only [insertAL, lookupAL]
    rw [if_neg (fun heq : k = x => h heq.symm)]
  | cons kv rest ih =>
    obtain ⟨k', v'⟩ := kv
    by_cases hk : k' = k
    · subst hk
      rw [insertAL, if_pos rfl]
      simp only [lookupAL]
      rw [if_neg (fun heq : k' = x => h heq.symm),
        if_neg (fun heq : k' = x => h heq.symm)]
    · rw [insertAL, if_neg hk]
      simp only [lookupAL]
      by_cases hx : k' = x
      · rw [if_pos hx, if_pos hx]
      · rw [if_neg hx, if_neg hx]
        exact ih

theorem parseFold_nodup (ls : List Str) (m : List (Str × Str)) (h : nodupKeys m) :
    nodupKeys (ls.foldl parseStep m) := by
  induction ls generalizing m with
  | nil => exact h
  | cons l rest ih =>
    rw [List.foldl_cons]
    apply ih
    rw [parseStep]
    cases parseLine l with
    | none => exact h
    | some kv => exact insertAL_nodupKeys m kv.1 kv.2 h

theorem parseFold_lookup_skip (ls : List Str) (m : List (Str × Str)) (k : Str)
    (h : ∀ l ∈ ls, ∀ v, parseLine l ≠ some (k, v)) :
    lookupAL (ls.foldl parseStep m) k = lookupAL m k := by
  induction ls generalizing m with
  | nil => rfl
  | cons l rest ih =>
    rw [List.foldl_cons]
    have hstep : lookupAL (parseStep m l) k = lookupAL m k := by
      rw [parseStep]
      cases hp : parseLine l with
      | none => rfl
      | some kv =>
        obtain ⟨k', v'⟩ := kv
        have hne : k ≠ k' := by
          rintro rfl
          exact h l (List.mem_cons_self l rest) v' hp
        rw [lookupAL_insertAL_ne m k' k v' hne]
    rw [ih _ (fun l' hl' => h l' (List.mem_cons_of_mem l hl')), hstep]

theorem checkDep_none_iff (kb : List Str) (cn fn d : Str) :
    checkDep kb cn fn d = none ↔
      ∀ p s, splitOnce '/' d = some (p, s) → p ∉ kb := by
  cases hs : splitOnce '/' d with
  | none =>
    rw [checkDep, hs]
    simp
  | some ps =>
    obtain ⟨p, s⟩ := ps
    rw [checkDep, hs]
    show (if p ∈ kb then some (⟨cn, fn, d, p⟩ : ConflictErr) else none) = none ↔ _
    by_cases hp : p ∈ kb
    · refine iff_of_false ?_ ?_
      · rw [if_pos hp]
        simp
      · intro h
        exact h p s rfl hp
    · refine iff_of_true (by rw [if_neg hp]) ?_
      rintro p' s' heq
      injection heq with h2
      cases h2
      exact hp

theorem checkDep_some (kb : List Str) (cn fn d : Str) (e : ConflictErr)
    (h : checkDep kb cn fn d = some e) :
    e.crateName = cn ∧ e.featureName = fn ∧ e.dep = d ∧
      (∃ s, splitOnce '/' d = some (e.pkgName, s)) ∧ e.pkgName ∈ kb := by
  rw [checkDep] at h
  cases hs : splitOnce '/' d with
  | none =>
    rw [hs] at h
    cases h
  | some ps =>
    obtain ⟨p, s⟩ := ps
    rw [hs] at h
    have h' : (if p ∈ kb then some (⟨cn, fn, d, p⟩ : ConflictErr) else none) =
        some e := h
    by_cases hp : p ∈ kb
    · rw [if_pos hp] at h'
      injection h' with h'
      subst h'
      exact ⟨rfl, rfl, rfl, ⟨s, rfl⟩, hp⟩
    · rw [if_neg hp] at h'
      cases h'

theorem validateDeps_ok_iff (kb : List Str) (cn fn : Str) (ds : List Str) :
    validateDeps kb cn fn ds = Except.ok () ↔
      ∀ d ∈ ds, checkDep kb cn fn d = none := by
  induction ds with
  | nil => simp [validateDeps]
  | cons d rest ih =>
    cases hc : checkDep kb cn fn d with
    | none =>
      rw [validateDeps, hc]
      show validateDeps kb cn fn rest = Except.ok () ↔ _
      rw [ih]
      constructor
      · intro h d' hd'
        rcases List.mem_cons.mp hd' with rfl | hm
        · exact hc
        · exact h d' hm
      · intro h d' hd'
        exact h d' (List.mem_cons_of_mem d hd')
    | some e =>
      rw [validateDeps, hc]
      show Except.error e = Except.ok () ↔ _
      refine iff_of_false (by simp) ?_
      intro h
      rw [h d (List.mem_cons_self d rest)] at hc
      cases hc

theorem validateDeps_error (kb : List Str) (cn fn : Str) (ds : List Str)
    (e : ConflictErr) (h : validateDeps kb cn fn ds = Except.error e) :
    ∃ d ∈ ds, checkDep kb cn fn d = some e := by
  induction ds with
  | nil =>
    rw [validateDeps] at h
    cases h
  | cons d rest ih =>
    rw [validateDeps] at h
    cases hc : checkDep kb cn fn d with
    | none =>
      rw [hc] at h
      obtain ⟨d', hd', he⟩ := ih h
      exact ⟨d', List.mem_cons_of_mem d hd', he⟩
    | some e' =>
      rw [hc] at h
      have h2 : Except.error e' = (Except.error e : Except ConflictErr Unit) := h
      injection h2 with h2
      subst h2
      exact ⟨d, List.mem_cons_self d rest, hc⟩

theorem validateFeats_ok_iff (kb : List Str) (cn : Str)
    (fs : List (Str × List Str)) :
    validateFeats kb cn fs = Except.ok () ↔
      ∀ fd ∈ fs, hasConfigMark fd.1 = true →
        validateDeps kb cn fd.1 fd.2 = Except.ok () := by
  induction fs with
  | nil => simp [validateFeats]
  | cons fd rest ih =>
    obtain ⟨fn, deps⟩ := fd
    by_cases hm : hasConfigMark fn = true
    · rw [validateFeats, if_pos hm]
      cases hv : validateDeps kb cn fn deps with
      | error e =>
        refine iff_of_false (by simp) ?_
        intro h
        have := h (fn, deps) (List.mem_cons_self _ _) hm
        rw [hv] at this
        cases this
      | ok u =>
        cases u
        show validateFeats kb cn rest = Except.ok () ↔ _
        rw [ih]
        constructor
        · intro h fd' hfd' hm'
          rcases List.mem_cons.mp hfd' with rfl | hmem
          · exact hv
          · exact h fd' hmem hm'
        · intro h fd' hfd' hm'
          exact h fd' (List.mem_cons_of_mem _ hfd') hm'
    · rw [validateFeats, if_neg hm, ih]
      constructor
      · intro h fd' hfd' hm'
        rcases List.mem_cons.mp hfd' with rfl | hmem
        · exact absurd hm' hm
        · exact h fd' hmem hm'
      · intro h fd' hfd' hm'
        exact h fd' (List.mem_cons_of_mem _ hfd') hm'

theorem validateFeats_error (kb : List Str) (cn : Str)
    (fs : List (Str × List Str)) (e : ConflictErr)
    (h : validateFeats kb cn fs = Except.error e) :
    ∃ fd ∈ fs, hasConfigMark fd.1 = true ∧
      validateDeps kb cn fd.1 fd.2 = Except.error e := by
  induction fs with
  | nil =>
    rw [validateFeats] at h
    cases h
  | cons fd rest ih =>
    obtain ⟨fn, deps⟩ := fd
    by_cases hm : hasConfigMark fn = true
    · rw [validateFeats, if_pos hm] at h
      cases hv : validateDeps kb cn fn deps with
      | error e' =>
        rw [hv] at h
        have h2 : Except.error e' = (Except.error e : Except ConflictErr Unit) := h
        injection h2 with h2
        subst h2
        exact ⟨(fn, deps), List.mem_cons_self _ _, hm, hv⟩
      | ok u =>
        cases u
        rw [hv] at h
        obtain ⟨fd', hfd', hm', hv'⟩ := ih h
        exact ⟨fd', List.mem_cons_of_mem _ hfd', hm', hv'⟩
    · rw [validateFeats, if_neg hm] at h
      obtain ⟨fd', hfd', hm', hv'⟩ := ih h
      exact ⟨fd', List.mem_cons_of_mem _ hfd', hm', hv'⟩

theorem validateCrates_ok_iff (kb : List Str) (cs : List CrateInfo) :
    validateCrates kb cs = Except.ok () ↔
      ∀ c ∈ cs, validateFeats kb c.name c.features = Except.ok () := by
  induction cs with
  | nil => simp [validateCrates]
  | cons c rest ih =>
    cases hv : validateFeats kb c.name c.features with
    | error e =>
      rw [validateCrates, hv]
      refine iff_of_false (by simp) ?_
      intro h
      have := h c (List.mem_cons_self c rest)
      rw [hv] at this
      cases this
    | ok u =>
      cases u
      rw [validateCrates, hv]
      show validateCrates kb rest = Except.ok () ↔ _
      rw [ih]
      constructor
      · intro h c' hc'
        rcases List.mem_cons.mp hc' with rfl | hmem
        · exact hv
        · exact h c' hmem
      · intro h c' hc'
        exact h c' (List.mem_cons_of_mem c hc')

theorem validateCrates_error (kb : List Str) (cs : List CrateInfo)
    (e : ConflictErr) (h : validateCrates kb cs = Except.error e) :
    ∃ c ∈ cs, validateFeats kb c.name c.features = Except.error e := by
  induction cs with
  | nil =>
    rw [validateCrates] at h
    cases h
  | cons c rest ih =>
    rw [validateCrates] at h
    cases hv : validateFeats kb c.name c.features with
    | error e' =>
      rw [hv] at h
      have h2 : Except.error e' = (Except.error e : Except ConflictErr Unit) := h
      injection h2 with h2
      subst h2
      exact ⟨c, List.mem_cons_self c rest, hv⟩
    | ok u =>
      cases u
      rw [hv] at h
      obtain ⟨c', hc', hv'⟩ := ih h
      exact ⟨c', List.mem_cons_of_mem c hc', hv'⟩

/-- An offending configuration in the sense of C1: some configuration-aware
package has a `CONFIG_`-prefixed capability containing a dependency spec of
the form `name/sub` where `name` is itself a configuration-aware workspace
package. -/
def Offends (ws : Workspace) : Prop :=
  ∃ c ∈ ws.crates, c.is_kbuild_enabled = true ∧
    ∃ fd ∈ c.features, hasConfigMark fd.1 = true ∧
      ∃ d ∈ fd.2, ∃ p s, splitOnce '/' d = some (p, s) ∧ p ∈ kbuildPackages ws

/-- The error data identifies an actual offense: the named crate exists, is
configuration-aware, declares the named `CONFIG_`-prefixed capability, that
capability contains the recorded dependency spec, and the spec's package
part is the recorded configuration-aware workspace package. -/
def ErrDescribes (ws : Workspace) (e : ConflictErr) : Prop :=
  ∃ c ∈ ws.crates, c.is_kbuild_enabled = true ∧ c.name = e.crateName ∧
    ∃ deps, (e.featureName, deps) ∈ c.features ∧
      hasConfigMark e.featureName = true ∧ e.dep ∈ deps ∧
      ∃ s, splitOnce '/' e.dep = some (e.pkgName, s) ∧
        e.pkgName ∈ kbuildPackages ws

/-! Concrete data used by witnesses. -/

/-- Example workspace: one aware crate declaring capability `CONFIG_NET`. -/
def wsNet : Workspace :=
  ⟨[⟨ofString "net_crate", false, [(ofString "CONFIG_NET", [])]⟩]⟩

/-- Example parsed table: `CONFIG_NET=y`, `CONFIG_MAX_CPUS=4`. -/
def cfgNet : List (Str × Str) :=
  [(ofString "CONFIG_NET", ofString "y"), (ofString "CONFIG_MAX_CPUS", ofString "4")]

/-- Example workspace with no members (so no declared capability at all). -/
def wsEmpty : Workspace := ⟨[]⟩

/-- Example conflicting workspace: crate `a` declares the capability
`CONFIG_SCHED = ["kernel_task/fast_path"]` while `kernel_task` is itself
configuration-aware. -/
def wsConflict : Workspace :=
  ⟨[⟨ofString "a", false,
      [(ofString "CONFIG_SCHED", [ofString "kernel_task/fast_path"])]⟩,
    ⟨ofString "kernel_task", true, []⟩]⟩

/-! Theorems. -/

set_option maxRecDepth 20000

/-- C3: the active symbol names are exactly the `CONFIG_`-prefixed keys of
the parsed table whose value is `y` or `m`; a key set to `n` or absent is
neither an active symbol nor passed in the activation list; a key set to `y`
or `m` that is declared by some manifest appears in both the active-symbol
list and the activation list handed to the build tool. -/
theorem active_symbols_spec (ws : Workspace) (config : List (Str × Str))
    (h : nodupKeys config) (k : Str) :
    (k ∈ generate_features config ↔
      hasConfigMark k = true ∧
        (lookupAL config k = some (ofString "y") ∨
          lookupAL config k = some (ofString "m"))) ∧
    (lookupAL config k = some (ofString "n") ∨ lookupAL config k = none →
      k ∉ generate_features config ∧ k ∉ cargoFeatures ws config) ∧
    (hasConfigMark k = true →
      (lookupAL config k = some (ofString "y") ∨
        lookupAL config k = some (ofString "m")) →
      k ∈ collect_all_configs ws →
      k ∈ generate_features config ∧ k ∈ cargoFeatures ws config) := by
  refine ⟨mem_generate_features_lookup config h k, ?_, ?_⟩
  · intro hcase
    have hnot : k ∉ generate_features config := by
      intro hmem
      rcases (mem_generate_features_lookup config h k).mp hmem with ⟨_, hy | hm⟩
      · rcases hcase with hn | hnone
        · rw [hn] at hy
          exact absurd (Option.some.injEq _ _ ▸ hy) (by decide)
        · rw [hnone] at hy
          cases hy
      · rcases hcase with hn | hnone
        · rw [hn] at hm
          exact absurd (Option.some.injEq _ _ ▸ hm) (by decide)
        · rw [hnone] at hm
          cases hm
    exact ⟨hnot, hnot⟩
  · intro h1 h2 _
    have hmem := (mem_generate_features_lookup config h k).mpr ⟨h1, h2⟩
    exact ⟨hmem, hmem⟩

/-- Witness for `active_symbols_spec`: in the table `CONFIG_NET=y`,
`CONFIG_MAX_CPUS=4` with a workspace declaring `CONFIG_NET`, the symbol
`CONFIG_NET` appears in the active list and the activation list. -/
theorem active_symbols_spec_witness :
    ofString "CONFIG_NET" ∈ generate_features cfgNet ∧
    ofString "CONFIG_NET" ∈ cargoFeatures wsNet cfgNet :=
  (active_symbols_spec wsNet cfgNet (by decide) (ofString "CONFIG_NET")).2.2
    (by decide) (Or.inl (by decide)) (by decide)

/-- C2 counterexample: with an empty workspace (no package declares any
capability) and the parsed table `CONFIG_FOO=y`, the feature list passed to
the build tool is `[CONFIG_FOO]` even though `CONFIG_FOO` is declared by no
manifest — active-but-undeclared symbols are not dropped, contradicting the
claimed filtering against declared capabilities. -/
theorem activation_list_not_filtered :
    cargoFeatures wsEmpty [(ofString "CONFIG_FOO", ofString "y")] =
      [ofString "CONFIG_FOO"] ∧
    collect_all_configs wsEmpty = [] ∧
    ofString "CONFIG_FOO" ∉ collect_all_configs wsEmpty := by
  refine ⟨by decide, by decide, by decide⟩

/-- C2 (amended): the capability-activation list passed to the build tool is
exactly the `generate_features` output — every `CONFIG_`-prefixed key with
value `y` or `m` — with no filtering against the capabilities declared by the
workspace packages (the right-hand side of the membership equivalence does
not mention the workspace). -/
theorem cargoFeatures_spec (ws : Workspace) (config : List (Str × Str))
    (h : nodupKeys config) (k : Str) :
    cargoFeatures ws config = generate_features config ∧
    (k ∈ cargoFeatures ws config ↔
      hasConfigMark k = true ∧
        (lookupAL config k = some (ofString "y") ∨
          lookupAL config k = some (ofString "m"))) :=
  ⟨rfl, mem_generate_features_lookup config h k⟩

/-- Witness for `cargoFeatures_spec` at the table `CONFIG_FOO=y` and the
empty workspace. -/
theorem cargoFeatures_spec_witness :
    cargoFeatures wsEmpty [(ofString "CONFIG_FOO", ofString "y")] =
      generate_features [(ofString "CONFIG_FOO", ofString "y")] ∧
    (ofString "CONFIG_FOO" ∈ cargoFeatures wsEmpty [(ofString "CONFIG_FOO", ofString "y")] ↔
      hasConfigMark (ofString "CONFIG_FOO") = true ∧
        (lookupAL [(ofString "CONFIG_FOO", ofString "y")] (ofString "CONFIG_FOO") =
            some (ofString "y") ∨
          lookupAL [(ofString "CONFIG_FOO", ofString "y")] (ofString "CONFIG_FOO") =
            some (ofString "m"))) :=
  cargoFeatures_spec wsEmpty [(ofString "CONFIG_FOO", ofString "y")] (by decide)
    (ofString "CONFIG_FOO")

/-- C1: validation fails with a `ConfigAwareDependencyConflict` exactly when
some configuration-aware package has a `CONFIG_`-prefixed capability
containing a dependency spec `name/sub` whose `name` part is itself a
configuration-aware workspace package; the reported error identifies the
offending package, the capability name, the full dependency spec, and the
target package; a spec pointing at a non-aware workspace package or a
non-workspace name never makes validation fail (third conjunct: membership
in `kbuildPackages` is exactly configuration-awareness of a workspace
package). -/
theorem validate_features_spec (ws : Workspace) :
    ((∃ e, validate_features ws = Except.error e) ↔ Offends ws) ∧
    (∀ e, validate_features ws = Except.error e → ErrDescribes ws e) ∧
    (∀ p, p ∈ kbuildPackages ws ↔
      ∃ c ∈ ws.crates, c.is_kbuild_enabled = true ∧ c.name = p) := by
  have hdesc : ∀ e, validate_features ws = Except.error e → ErrDescribes ws e := by
    intro e h
    rw [validate_features] at h
    obtain ⟨c, hc, hf⟩ := validateCrates_error _ _ _ h
    rw [List.mem_filter] at hc
    obtain ⟨fd, hfd, hmark, hv⟩ := validateFeats_error _ _ _ _ hf
    obtain ⟨d, hd, hcd⟩ := validateDeps_error _ _ _ _ _ hv
    obtain ⟨hcn, hfn, hdep, ⟨s, hsplit⟩, hpkg⟩ := checkDep_some _ _ _ _ _ hcd
    refine ⟨c, hc.1, hc.2, hcn.symm, fd.2, ?_, ?_, ?_, s, ?_, hpkg⟩
    · rw [hfn]
      simpa using hfd
    · rw [hfn]
      exact hmark
    · rw [hdep]
      exact hd
    · rw [hdep]
      exact hsplit
  refine ⟨⟨?_, ?_⟩, hdesc, ?_⟩
  · rintro ⟨e, he⟩
    obtain ⟨c, hc, hen, hcn, deps, hfd, hm, hd, s, hsplit, hp⟩ := hdesc e he
    exact ⟨c, hc, hen, (e.featureName, deps), hfd, hm, e.dep, hd, e.pkgName, s,
      hsplit, hp⟩
  · intro hoff
    cases hv : validate_features ws with
    | error e => exact ⟨e, rfl⟩
    | ok u =>
      cases u
      exfalso
      obtain ⟨c, hc, hen, fd, hfd, hm, d, hd, p, s, hsplit, hp⟩ := hoff
      rw [validate_features] at hv
      have h1 := (validateCrates_ok_iff _ _).mp hv c (List.mem_filter.mpr ⟨hc, hen⟩)
      have h2 := (validateFeats_ok_iff _ _ _).mp h1 fd hfd hm
      have h3 := (validateDeps_ok_iff _ _ _ _).mp h2 d hd
      exact (checkDep_none_iff _ _ _ _).mp h3 p s hsplit hp
  · intro p
    simp only [kbuildPackages, List.mem_map, List.mem_filter]
    constructor
    · rintro ⟨c, ⟨hc, hen⟩, rfl⟩
      exact ⟨c, hc, hen, rfl⟩
    · rintro ⟨c, hc, hen, rfl⟩
      exact ⟨c, ⟨hc, hen⟩, rfl⟩

/-- Witness for `validate_features_spec`: on the conflicting example
workspace the validator errors, and the error identifies crate `a`,
capability `CONFIG_SCHED`, dependency spec `kernel_task/fast_path`, and
target package `kernel_task`. -/
theorem validate_features_spec_witness :
    ErrDescribes wsConflict
      ⟨ofString "a", ofString "CONFIG_SCHED", ofString "kernel_task/fast_path",
        ofString "kernel_task"⟩ :=
  (validate_features_spec wsConflict).2.1 _ rfl

/-- C5 counterexample: the two tables below are enumerations of one and the
same parsed config map (they are permutations of each other, as two process
runs of the unordered `HashMap` may produce), yet the generated `config.rs`
contents differ byte-wise — the constants file is not byte-identical across
runs on unchanged inputs. -/
theorem config_rs_not_run_invariant :
    ([(ofString "CONFIG_A", ofString "1"), (ofString "CONFIG_B", ofString "2")] :
        List (Str × Str)).Perm
      [(ofString "CONFIG_B", ofString "2"), (ofString "CONFIG_A", ofString "1")] ∧
    generate_config_rs_content
        [(ofString "CONFIG_A", ofString "1"), (ofString "CONFIG_B", ofString "2")] ≠
      generate_config_rs_content
        [(ofString "CONFIG_B", ofString "2"), (ofString "CONFIG_A", ofString "1")] := by
  constructor
  · exact List.Perm.swap _ _ _
  · decide

/-- C5 (amended): the generated `.cargo/config.toml` is byte-identical
across runs — its content is invariant under re-enumeration (any
permutation) of the collected config-name set, because the names are sorted
before emission; the generated `config.rs` is only guaranteed to consist of
the same per-entry emissions up to hash-map enumeration order, so its bytes
may differ between runs. -/
theorem pipeline_artifact_determinism (l1 l2 : List Str) (t1 t2 : List (Str × Str))
    (hl : l1.Perm l2) (ht : t1.Perm t2) :
    generate_cargo_config_content l1 = generate_cargo_config_content l2 ∧
    (t1.map (fun kv => constOutFor kv.1 kv.2)).Perm
      (t2.map (fun kv => constOutFor kv.1 kv.2)) := by
  constructor
  · unfold generate_cargo_config_content
    have hsort : List.insertionSort (· ≤ ·) l1 = List.insertionSort (· ≤ ·) l2 := by
      haveI : IsAntisymm Str (· ≤ ·) := ⟨fun _ _ => le_antisymm⟩
      exact List.eq_of_perm_of_sorted (r := (· ≤ ·))
        ((List.perm_insertionSort _ _).trans (hl.trans (List.perm_insertionSort _ _).symm))
        (List.sorted_insertionSort _ _) (List.sorted_insertionSort _ _)
    rw [hsort]
  · exact ht.map _

/-- Witness for `pipeline_artifact_determinism`: the two enumerations
`[CONFIG_B, CONFIG_A]` and `[CONFIG_A, CONFIG_B]` of the declared-name set
produce the same `.cargo/config.toml` content. -/
theorem pipeline_artifact_determinism_witness :
    generate_cargo_config_content [ofString "CONFIG_B", ofString "CONFIG_A"] =
      generate_cargo_config_content [ofString "CONFIG_A", ofString "CONFIG_B"] ∧
    ([(ofString "CONFIG_A", ofString "1")].map (fun kv => constOutFor kv.1 kv.2)).Perm
      ([(ofString "CONFIG_A", ofString "1")].map (fun kv => constOutFor kv.1 kv.2)) :=
  pipeline_artifact_determinism _ _ _ _ (List.Perm.swap _ _ _) (List.Perm.refl _)

/-- C8: when the same key occurs on several lines the parsed table maps it
to the value of the last occurrence — later occurrences overwrite earlier
ones without error — and the resulting table has pairwise-distinct keys. -/
theorem parse_last_write_wins :
    (∀ lines : List Str, nodupKeys (parseConfigLines lines)) ∧
    (∀ ls1 ls2 : List Str, ∀ l k v : Str,
      parseLine l = some (k, v) →
      (∀ l' ∈ ls2, ∀ v', parseLine l' ≠ some (k, v')) →
      lookupAL (parseConfigLines (ls1 ++ l :: ls2)) k = some v) := by
  constructor
  · intro lines
    exact parseFold_nodup lines [] (by simp [nodupKeys])
  · intro ls1 ls2 l k v hl h2
    rw [parseConfigLines, List.foldl_append, List.foldl_cons]
    rw [parseFold_lookup_skip ls2 _ k h2]
    rw [parseStep, hl]
    exact lookupAL_insertAL_self _ k v

/-- Witness for `parse_last_write_wins`: after `CONFIG_A=1` then
`CONFIG_A=2`, the table maps `CONFIG_A` to `2`. -/
theorem parse_last_write_wins_witness :
    lookupAL (parseConfigLines [ofString "CONFIG_A=1", ofString "CONFIG_A=2"])
      (ofString "CONFIG_A") = some (ofString "2") :=
  parse_last_write_wins.2 [ofString "CONFIG_A=1"] [] (ofString "CONFIG_A=2")
    (ofString "CONFIG_A") (ofString "2") (by decide)
    (fun l' hl' => absurd hl' (List.not_mem_nil l'))

/-- C9: a package is configuration-aware exactly when its manifest marks it
directly aware (`package.metadata.kbuild.enabled`) or some declared
capability name carries the `CONFIG_` prefix. -/
theorem is_kbuild_enabled_iff (c : CrateInfo) :
    c.is_kbuild_enabled = true ↔
      (c.has_kbuild = true ∨ ∃ fd ∈ c.features, hasConfigMark fd.1 = true) := by
  simp [CrateInfo.is_kbuild_enabled]

/-- C6 counterexample: when the delegated `cargo build` exits with status 2,
`cmd_build` exits with code 1, not with the underlying code 2 — the
underlying exit code is not propagated. -/
theorem cmd_build_exit_not_propagated :
    cmd_build_exit 2 = 1 ∧ (1 : Nat) ≠ 2 := by
  exact ⟨rfl, by decide⟩

/-- C6 (amended): on any non-zero exit status of the delegated build process
the pipeline fails fatally with the fixed error `"Build failed"` and the
program exits with code 1, regardless of the underlying exit code. -/
theorem cmd_build_exit_one (c : Nat) (h : c ≠ 0) :
    buildStep c = Except.error (ofString "Build failed") ∧ cmd_build_exit c = 1 := by
  refine ⟨?_, ?_⟩ <;> simp [buildStep, cmd_build_exit, h]

/-- Witness for `cmd_build_exit_one` at exit status 5. -/
theorem cmd_build_exit_one_witness :
    buildStep 5 = Except.error (ofString "Build failed") ∧ cmd_build_exit 5 = 1 :=
  cmd_build_exit_one 5 (by decide)

/-- C4 counterexample: on the table mapping `CONFIG_BAD` to the
one-character value `"` — which is not `y`/`m`/`n` and matches none of the
three claimed shapes (signed integer, quoted string, unsigned integer) — the
generator does not silently omit the entry: the quote-stripping slice panics
and no constant file content is produced at all. -/
theorem const_generation_panics_on_lone_quote :
    generate_config_rs_content [(ofString "CONFIG_BAD", ofString "\"")] = none := by
  decide

/-- Values that parse as `i32` are never the booleans `y`/`n`/`m`. -/
theorem parseI32_not_bool (v : Str) (n : Int) (h : parseI32 v = some n) :
    v ≠ ofString "y" ∧ v ≠ ofString "n" ∧ v ≠ ofString "m" := by
  refine ⟨?_, ?_, ?_⟩
  · rintro rfl
    rw [(by decide : parseI32 (ofString "y") = none)] at h
    cases h
  · rintro rfl
    rw [(by decide : parseI32 (ofString "n") = none)] at h
    cases h
  · rintro rfl
    rw [(by decide : parseI32 (ofString "m") = none)] at h
    cases h

/-- Values that parse as `usize` are never the booleans `y`/`n`/`m`. -/
theorem parseUsize_not_bool (v : Str) (n : Nat) (h : parseUsize v = some n) :
    v ≠ ofString "y" ∧ v ≠ ofString "n" ∧ v ≠ ofString "m" := by
  refine ⟨?_, ?_, ?_⟩
  · rintro rfl
    rw [(by decide : parseUsize (ofString "y") = none)] at h
    cases h
  · rintro rfl
    rw [(by decide : parseUsize (ofString "n") = none)] at h
    cases h
  · rintro rfl
    rw [(by decide : parseUsize (ofString "m") = none)] at h
    cases h

/-- Values that start with a quote are never the booleans `y`/`n`/`m`. -/
theorem quote_head_not_bool (v : Str) (h : v.head? = some '"') :
    v ≠ ofString "y" ∧ v ≠ ofString "n" ∧ v ≠ ofString "m" := by
  refine ⟨?_, ?_, ?_⟩ <;> rintro rfl <;> revert h <;> decide

/-- A value that starts with a quote and is not the lone quote character has
length at least 2. -/
theorem two_le_length_of_quotes (v : Str) (hq : v ≠ ofString "\"")
    (h1 : v.head? = some '"') : 2 ≤ v.length := by
  match v with
  | [] => cases h1
  | [c] =>
    rw [List.head?] at h1
    injection h1 with h1
    subst h1
    exact absurd rfl hq
  | a :: b :: t =>
    simp [List.length]

/-- C4 (amended): for every `CONFIG_`-prefixed key whose value is not the
lone quote character `"` (on which the generator panics, see the
counterexample), the generator emits no constant for `y`/`m`/`n` values and
otherwise chooses the type by trying signed 32-bit integer first, then the
quote-delimited string shape with the surrounding quotes stripped, then
unsigned 64-bit integer, silently omitting a value matching none of the
three shapes. -/
theorem constOutFor_priority (k v : Str) (hk : hasConfigMark k = true)
    (hq : v ≠ ofString "\"") :
    ((v = ofString "y" ∨ v = ofString "m" ∨ v = ofString "n") →
      constOutFor k v = ConstOut.skipped) ∧
    (∀ n, parseI32 v = some n → constOutFor k v = ConstOut.line (i32Line k n)) ∧
    (parseI32 v = none → v.head? = some '"' → v.getLast? = some '"' →
      constOutFor k v = ConstOut.line (strLine k ((v.drop 1).dropLast))) ∧
    (parseI32 v = none → ¬(v.head? = some '"' ∧ v.getLast? = some '"') →
      ∀ n, parseUsize v = some n → constOutFor k v = ConstOut.line (usizeLine k n)) ∧
    (¬(v = ofString "y" ∨ v = ofString "m" ∨ v = ofString "n") →
      parseI32 v = none → ¬(v.head? = some '"' ∧ v.getLast? = some '"') →
      parseUsize v = none → constOutFor k v = ConstOut.skipped) := by
  have hkk : ¬¬ hasConfigMark k = true := by simp [hk]
  refine ⟨?_, ?_, ?_, ?_, ?_⟩
  · intro hv
    rw [constOutFor, if_neg hkk, if_pos (by tauto)]
  · intro n hn
    obtain ⟨h1, h2, h3⟩ := parseI32_not_bool v n hn
    rw [constOutFor, if_neg hkk, if_neg (by tauto), hn]
  · intro hnone hh hl
    obtain ⟨h1, h2, h3⟩ := quote_head_not_bool v hh
    rw [constOutFor, if_neg hkk, if_neg (by tauto), hnone, if_pos ⟨hh, hl⟩,
      if_pos (two_le_length_of_quotes v hq hh)]
  · intro hnone hnq n hn
    obtain ⟨h1, h2, h3⟩ := parseUsize_not_bool v n hn
    rw [constOutFor, if_neg hkk, if_neg (by tauto), hnone, if_neg hnq, hn]
  · intro hnb hnone hnq hu
    rw [constOutFor, if_neg hkk, if_neg (by tauto), hnone, if_neg hnq, hu]

/-- Witness for `constOutFor_priority`: the value `4` of `CONFIG_MAX_CPUS`
yields the `i32` constant declaration. -/
theorem constOutFor_priority_witness :
    constOutFor (ofString "CONFIG_MAX_CPUS") (ofString "4") =
      ConstOut.line (i32Line (ofString "CONFIG_MAX_CPUS") 4) :=
  (constOutFor_priority (ofString "CONFIG_MAX_CPUS") (ofString "4")
    (by decide) (by decide)).2.1 4 (by decide)

/-- C10: constant generation is not total over parser outputs.  The line
`CONFIG_X="` parses to the table mapping `CONFIG_X` to the one-character
value `"`; on that value the slice `&value[1..value.len()-1]` in
`generate_config_rs` has the invalid range `1..0` and panics, so no
`config.rs` content is produced. -/
theorem generate_config_rs_panics :
    parse_config (some (ofString "CONFIG_X=\"")) =
      Except.ok [(ofString "CONFIG_X", ofString "\"")] ∧
    constOutFor (ofString "CONFIG_X") (ofString "\"") = ConstOut.sliceFault ∧
    generate_config_rs_content [(ofString "CONFIG_X", ofString "\"")] = none := by
  exact ⟨rfl, by decide, by decide⟩

end Kbuild
